import Mathlib

/-!
Verification of the edge-informed super-resolution architecture
(`code/arch/sisr_arch.py`): a shallow embedding in Lean 4 of the tensor
pipeline (`EdgeSRModel`, `EdgeGenerator`, `SRGenerator`, `ResnetBlock`,
`spectral_norm`) and of the weight-initialization pass
(`BaseNetwork.init_weights`), together with theorems settling the
specification's claims about them.

Tensors are modelled as a (batch, channel, height, width) shape together
with a total real-valued index function; layer applications that the
numeric engine would reject (shape errors) are modelled as `none`.
-/

set_option maxHeartbeats 1000000
set_option maxRecDepth 8000

noncomputable section

/-- A 4-dimensional tensor in (batch, channel, height, width) layout.
`data` is a total function; only indices below the bounds are meaningful. -/
structure Tensor where
  n : Nat
  c : Nat
  h : Nat
  w : Nat
  data : Nat → Nat → Nat → Nat → ℝ

/-- The shape of a tensor, as a (batch, channel, height, width) tuple. -/
def Tensor.shape (t : Tensor) : Nat × Nat × Nat × Nat := (t.n, t.c, t.h, t.w)

/-- Bounds-checked read used where a convolution's zero padding can reach
outside the input: out-of-range positions read as `0`. -/
def tGet (t : Tensor) (b c : Nat) (i j : Int) : ℝ :=
  if 0 ≤ i ∧ i < (t.h : Int) ∧ 0 ≤ j ∧ j < (t.w : Int) then
    t.data b c i.toNat j.toNat
  else 0

/-- Source index used by reflection padding of amount `pad` on an axis of
size `size`: output index `i` reads input index `i - pad`, mirrored at the
borders (PyTorch `ReflectionPad2d` semantics). -/
def reflectIdx (size pad i : Nat) : Nat :=
  if i < pad then pad - i
  else if i - pad < size then i - pad
  else 2 * size - 2 - (i - pad)

/-- The layer `nn.ReflectionPad2d(p)`: pads both spatial axes by `p` with mirrored
values.  PyTorch requires the padding to be smaller than each input
dimension; otherwise the call fails (`none`). -/
def reflectionPad2d (p : Nat) (t : Tensor) : Option Tensor :=
  if p < t.h ∧ p < t.w then
    some ⟨t.n, t.c, t.h + 2 * p, t.w + 2 * p,
      fun b c i j => t.data b c (reflectIdx t.h p i) (reflectIdx t.w p j)⟩
  else none

/-- Hyperparameters and parameters of an `nn.Conv2d` layer (square kernel,
symmetric stride/padding/dilation, as used throughout the source).
`weight` is indexed (out-channel, in-channel, kernel-row, kernel-col);
`snSigma` models the spectral-norm power-iteration estimate of the largest
singular value that `nn.utils.spectral_norm` maintains alongside the layer
(used only when the layer is wrapped by `spectral_norm`). -/
structure Conv2d where
  in_channels : Nat
  out_channels : Nat
  kernel_size : Nat
  stride : Nat := 1
  padding : Nat := 0
  dilation : Nat := 1
  bias : Bool := true
  weight : Nat → Nat → Nat → Nat → ℝ
  biasVal : Nat → ℝ
  snSigma : ℝ := 1

/-- The layer `nn.Conv2d` applied to a tensor: cross-correlation with zero padding.
Fails (`none`) when the input channel count does not match or the output
spatial size would not be positive. -/
def conv2d (L : Conv2d) (t : Tensor) : Option Tensor :=
  if L.in_channels = t.c ∧ 0 < L.stride ∧ 0 < L.dilation ∧
      L.dilation * (L.kernel_size - 1) + 1 ≤ t.h + 2 * L.padding ∧
      L.dilation * (L.kernel_size - 1) + 1 ≤ t.w + 2 * L.padding then
    some ⟨t.n, L.out_channels,
      (t.h + 2 * L.padding - (L.dilation * (L.kernel_size - 1) + 1)) / L.stride + 1,
      (t.w + 2 * L.padding - (L.dilation * (L.kernel_size - 1) + 1)) / L.stride + 1,
      fun b o i j =>
        (if L.bias then L.biasVal o else 0) +
        ∑ ci ∈ Finset.range t.c, ∑ u ∈ Finset.range L.kernel_size,
          ∑ v ∈ Finset.range L.kernel_size,
            L.weight o ci u v *
              tGet t b ci ((i * L.stride + u * L.dilation : Int) - L.padding)
                ((j * L.stride + v * L.dilation : Int) - L.padding)⟩
  else none

/-- Hyperparameters and parameters of an `nn.ConvTranspose2d` layer
(square kernel, output_padding 0 as in the source).  `weight` is indexed
(in-channel, out-channel, kernel-row, kernel-col). -/
structure ConvTranspose2d where
  in_channels : Nat
  out_channels : Nat
  kernel_size : Nat
  stride : Nat := 1
  padding : Nat := 0
  dilation : Nat := 1
  bias : Bool := true
  weight : Nat → Nat → Nat → Nat → ℝ
  biasVal : Nat → ℝ
  snSigma : ℝ := 1

/-- Strided bounds-checked read used by transposed convolution: position
`(i, j)` contributes only when both coordinates are multiples of `stride`
and the quotients are inside the input. -/
def tGetStride (t : Tensor) (b c : Nat) (i j : Int) (stride : Nat) : ℝ :=
  if i % (stride : Int) = 0 ∧ j % (stride : Int) = 0 then
    tGet t b c (i / (stride : Int)) (j / (stride : Int))
  else 0

/-- The layer `nn.ConvTranspose2d` applied to a tensor (gradient of `conv2d` with
respect to its input, plus bias).  Fails (`none`) on channel mismatch,
empty input, or non-positive output size. -/
def convTranspose2d (L : ConvTranspose2d) (t : Tensor) : Option Tensor :=
  if L.in_channels = t.c ∧ 0 < L.stride ∧ 0 < L.dilation ∧ 0 < t.h ∧ 0 < t.w ∧
      2 * L.padding < (t.h - 1) * L.stride + L.dilation * (L.kernel_size - 1) + 1 ∧
      2 * L.padding < (t.w - 1) * L.stride + L.dilation * (L.kernel_size - 1) + 1 then
    some ⟨t.n, L.out_channels,
      (t.h - 1) * L.stride + L.dilation * (L.kernel_size - 1) + 1 - 2 * L.padding,
      (t.w - 1) * L.stride + L.dilation * (L.kernel_size - 1) + 1 - 2 * L.padding,
      fun b o i j =>
        (if L.bias then L.biasVal o else 0) +
        ∑ ci ∈ Finset.range t.c, ∑ u ∈ Finset.range L.kernel_size,
          ∑ v ∈ Finset.range L.kernel_size,
            L.weight ci o u v *
              tGetStride t b ci ((i + L.padding : Int) - u * L.dilation)
                ((j + L.padding : Int) - v * L.dilation) L.stride⟩
  else none

/-- The layer `nn.InstanceNorm2d(features, track_running_stats=False)` (affine is
False by default, so the layer has no parameters): every channel of every
sample is normalized by its own spatial mean and biased variance, with the
default `eps = 1e-5` inside the square root.  The `features` argument is
recorded but, with affine off, does not influence the computation. -/
def instanceNorm2d (features : Nat) (t : Tensor) : Tensor :=
  { t with data := fun b c i j =>
      let μ := (∑ x ∈ Finset.range t.h, ∑ y ∈ Finset.range t.w, t.data b c x y) /
        (t.h * t.w : ℝ)
      let v := (∑ x ∈ Finset.range t.h, ∑ y ∈ Finset.range t.w,
        (t.data b c x y - μ) ^ 2) / (t.h * t.w : ℝ)
      (t.data b c i j - μ) / Real.sqrt (v + 1e-5) }

/-- The layer `nn.ReLU`: negative entries clamped to zero. -/
def reluT (t : Tensor) : Tensor :=
  { t with data := fun b c i j => max 0 (t.data b c i j) }

/-- The function `torch.sigmoid` applied elementwise. -/
def sigmoidT (t : Tensor) : Tensor :=
  { t with data := fun b c i j => 1 / (1 + Real.exp (-(t.data b c i j))) }

/-- The output activation `(torch.tanh(x) + 1) / 2` of `SRGenerator.forward`,
applied elementwise. -/
def tanhRescale (t : Tensor) : Tensor :=
  { t with data := fun b c i j => (Real.tanh (t.data b c i j) + 1) / 2 }

/-- The call `F.interpolate(t, scale_factor=s)` with the default nearest-neighbour
mode: each output position replicates the input value at the floored
quotient position. -/
def interpolate (t : Tensor) (scale_factor : Nat) : Tensor :=
  ⟨t.n, t.c, t.h * scale_factor, t.w * scale_factor,
    fun b c i j => t.data b c (i / scale_factor) (j / scale_factor)⟩

/-- The call `torch.cat((x, y), dim=1)`: concatenation along the channel axis;
requires the remaining dimensions to agree. -/
def catChannels (x y : Tensor) : Option Tensor :=
  if x.n = y.n ∧ x.h = y.h ∧ x.w = y.w then
    some ⟨x.n, x.c + y.c, x.h, x.w,
      fun b c i j => if c < x.c then x.data b c i j else y.data b (c - x.c) i j⟩
  else none

/-- Elementwise tensor addition (`x + y`), for operands of equal shape
(the only form the source uses). -/
def tensorAdd (x y : Tensor) : Option Tensor :=
  if x.n = y.n ∧ x.c = y.c ∧ x.h = y.h ∧ x.w = y.w then
    some ⟨x.n, x.c, x.h, x.w,
      fun b c i j => x.data b c i j + y.data b c i j⟩
  else none

/-- A layer of an `nn.Sequential` stack as used by the source: reflection
padding, (transposed) convolution, instance normalization, ReLU, or a
convolution wrapped by `nn.utils.spectral_norm`. -/
inductive Layer where
  | reflectionPad (p : Nat)
  | conv (c : Conv2d)
  | convTranspose (c : ConvTranspose2d)
  | instanceNorm (features : Nat)
  | reLU
  | spectralNormWrap (inner : Layer)

/-- The source's helper
`def spectral_norm(module, mode=True): return nn.utils.spectral_norm(module) if mode else module`. -/
def spectral_norm (module : Layer) (mode : Bool := true) : Layer :=
  if mode then Layer.spectralNormWrap module else module

/-- A spectral-normalized convolution forwards with its weight divided by
the layer's current power-iteration estimate `snSigma` of the largest
singular value (PyTorch `nn.utils.spectral_norm` reparameterization). -/
def snConv (c : Conv2d) : Conv2d :=
  { c with weight := fun o i u v => c.weight o i u v / c.snSigma }

/-- Spectral-norm weight reparameterization of a transposed convolution. -/
def snConvT (c : ConvTranspose2d) : ConvTranspose2d :=
  { c with weight := fun i o u v => c.weight i o u v / c.snSigma }

/-- Application of a single layer to a tensor. -/
def Layer.eval : Layer → Tensor → Option Tensor
  | .reflectionPad p, t => reflectionPad2d p t
  | .conv c, t => conv2d c t
  | .convTranspose c, t => convTranspose2d c t
  | .instanceNorm features, t => some (instanceNorm2d features t)
  | .reLU, t => some (reluT t)
  | .spectralNormWrap (.conv c), t => conv2d (snConv c) t
  | .spectralNormWrap (.convTranspose c), t => convTranspose2d (snConvT c) t
  | .spectralNormWrap m, t => Layer.eval m t

/-- The container `nn.Sequential`: layers applied in order, propagating failure. -/
def evalSeq : List Layer → Tensor → Option Tensor
  | [], t => some t
  | l :: ls, t => (l.eval t).bind (evalSeq ls)

/-- The learnable parameters of one convolution as they stand after
construction (the random values the initializer produced), together with
the spectral-norm singular-value estimate for wrapped layers. -/
structure ConvW where
  weight : Nat → Nat → Nat → Nat → ℝ
  biasVal : Nat → ℝ
  snSigma : ℝ

/-- The constructor `ResnetBlock.__init__`: the `conv_block` Sequential — reflection pad by
`dilation`, dilated 3×3 convolution (optionally spectral-normalized, bias
present exactly when spectral norm is off), instance norm, ReLU, reflection
pad by 1, 3×3 convolution (same wrapping and bias rule), instance norm.
No activation after the second convolution. -/
def ResnetBlock.conv_block (dim dilation : Nat) (use_spectral_norm : Bool)
    (w1 w2 : ConvW) : List Layer :=
  [ .reflectionPad dilation,
    spectral_norm (.conv
      { in_channels := dim, out_channels := dim, kernel_size := 3, padding := 0,
        dilation := dilation, bias := !use_spectral_norm,
        weight := w1.weight, biasVal := w1.biasVal, snSigma := w1.snSigma })
      use_spectral_norm,
    .instanceNorm dim,
    .reLU,
    .reflectionPad 1,
    spectral_norm (.conv
      { in_channels := dim, out_channels := dim, kernel_size := 3, padding := 0,
        dilation := 1, bias := !use_spectral_norm,
        weight := w2.weight, biasVal := w2.biasVal, snSigma := w2.snSigma })
      use_spectral_norm,
    .instanceNorm dim ]

/-- The method `ResnetBlock.forward`: `out = x + self.conv_block(x)` (skip connection;
no ReLU at the end of the residual block). -/
def ResnetBlock.forward (dim dilation : Nat) (use_spectral_norm : Bool)
    (w1 w2 : ConvW) (x : Tensor) : Option Tensor :=
  (evalSeq (ResnetBlock.conv_block dim dilation use_spectral_norm w1 w2) x).bind
    (fun y => tensorAdd x y)

/-- The middle stage of either generator: the Sequential of
`ResnetBlock(256, 2, use_spectral_norm)` blocks, applied in order. -/
def applyBlocks (use_spectral_norm : Bool) : List (ConvW × ConvW) → Tensor → Option Tensor
  | [], t => some t
  | ws :: rest, t =>
    (ResnetBlock.forward 256 2 use_spectral_norm ws.1 ws.2 t).bind
      (applyBlocks use_spectral_norm rest)

/-- The shared encoder Sequential of both generators (§ the source's
`self.encoder`): pad 3, 4→64 7×7 conv, IN, ReLU, 64→128 4×4 stride-2 conv,
IN, ReLU, 128→256 4×4 stride-2 conv, IN, ReLU; each convolution optionally
spectral-normalized (`usn` is `use_spectral_norm` in `EdgeGenerator`, and
the wrappers vanish for `SRGenerator`, which never wraps). -/
def encoderLayers (usn : Bool) (c1 c2 c3 : ConvW) : List Layer :=
  [ .reflectionPad 3,
    spectral_norm (.conv
      { in_channels := 4, out_channels := 64, kernel_size := 7, padding := 0,
        weight := c1.weight, biasVal := c1.biasVal, snSigma := c1.snSigma }) usn,
    .instanceNorm 64,
    .reLU,
    spectral_norm (.conv
      { in_channels := 64, out_channels := 128, kernel_size := 4, stride := 2,
        padding := 1, weight := c2.weight, biasVal := c2.biasVal,
        snSigma := c2.snSigma }) usn,
    .instanceNorm 128,
    .reLU,
    spectral_norm (.conv
      { in_channels := 128, out_channels := 256, kernel_size := 4, stride := 2,
        padding := 1, weight := c3.weight, biasVal := c3.biasVal,
        snSigma := c3.snSigma }) usn,
    .instanceNorm 256,
    .reLU ]

/-- The shared decoder Sequential of both generators (`self.decoder`):
256→128 and 128→64 4×4 stride-2 transposed convolutions with IN and ReLU,
then pad 3 and a plain 64→`out_channels` 7×7 convolution (never
spectral-normalized, matching the source, where the final convolution is
outside any `spectral_norm` call). -/
def decoderLayers (usn : Bool) (out_channels : Nat) (d1 d2 d3 : ConvW) : List Layer :=
  [ spectral_norm (.convTranspose
      { in_channels := 256, out_channels := 128, kernel_size := 4, stride := 2,
        padding := 1, weight := d1.weight, biasVal := d1.biasVal,
        snSigma := d1.snSigma }) usn,
    .instanceNorm 128,
    .reLU,
    spectral_norm (.convTranspose
      { in_channels := 128, out_channels := 64, kernel_size := 4, stride := 2,
        padding := 1, weight := d2.weight, biasVal := d2.biasVal,
        snSigma := d2.snSigma }) usn,
    .instanceNorm 64,
    .reLU,
    .reflectionPad 3,
    .conv { in_channels := 64, out_channels := out_channels,
            kernel_size := 7, padding := 0, weight := d3.weight,
            biasVal := d3.biasVal, snSigma := d3.snSigma } ]

/-- The parameters a constructed `SRGenerator` holds: its three encoder
convolutions, one pair of convolutions per residual block (indexed), and
its three decoder convolutions. -/
structure SRGeneratorW where
  enc1 : ConvW
  enc2 : ConvW
  enc3 : ConvW
  blockW : Nat → ConvW × ConvW
  dec1 : ConvW
  dec2 : ConvW
  dec3 : ConvW

/-- A constructed `SRGenerator`: the state `__init__` leaves behind.  The
`init_weights=True` flag only re-randomizes the parameter values, which are
taken here as given (`w`); the `scale` argument is read by no code path. -/
structure SRGenerator where
  residual_blocks : Nat
  w : SRGeneratorW

/-- The constructor `SRGenerator.__init__(scale=4, residual_blocks=8, init_weights=True)`:
`scale` is accepted and discarded; no spectral normalization anywhere. -/
def SRGenerator.make (scale : Nat := 4) (residual_blocks : Nat := 8)
    (w : SRGeneratorW) : SRGenerator :=
  ⟨residual_blocks, w⟩

/-- The stage `SRGenerator.encoder` (no `spectral_norm` wrapping in this generator). -/
def SRGenerator.encoder (g : SRGenerator) : List Layer :=
  [ .reflectionPad 3,
    .conv { in_channels := 4, out_channels := 64, kernel_size := 7,
            padding := 0, weight := g.w.enc1.weight,
            biasVal := g.w.enc1.biasVal, snSigma := g.w.enc1.snSigma },
    .instanceNorm 64,
    .reLU,
    .conv { in_channels := 64, out_channels := 128, kernel_size := 4,
            stride := 2, padding := 1, weight := g.w.enc2.weight,
            biasVal := g.w.enc2.biasVal, snSigma := g.w.enc2.snSigma },
    .instanceNorm 128,
    .reLU,
    .conv { in_channels := 128, out_channels := 256, kernel_size := 4,
            stride := 2, padding := 1, weight := g.w.enc3.weight,
            biasVal := g.w.enc3.biasVal, snSigma := g.w.enc3.snSigma },
    .instanceNorm 256,
    .reLU ]

/-- The stage `SRGenerator.middle`: `residual_blocks` copies of `ResnetBlock(256, 2)`
(the `use_spectral_norm=False` default applies), block `i` holding its own
parameters. -/
def SRGenerator.blocks (g : SRGenerator) : List (ConvW × ConvW) :=
  (List.range g.residual_blocks).map g.w.blockW

/-- The stage `SRGenerator.decoder`. -/
def SRGenerator.decoder (g : SRGenerator) : List Layer :=
  [ .convTranspose { in_channels := 256, out_channels := 128,
                     kernel_size := 4, stride := 2, padding := 1,
                     weight := g.w.dec1.weight, biasVal := g.w.dec1.biasVal,
                     snSigma := g.w.dec1.snSigma },
    .instanceNorm 128,
    .reLU,
    .convTranspose { in_channels := 128, out_channels := 64,
                     kernel_size := 4, stride := 2, padding := 1,
                     weight := g.w.dec2.weight, biasVal := g.w.dec2.biasVal,
                     snSigma := g.w.dec2.snSigma },
    .instanceNorm 64,
    .reLU,
    .reflectionPad 3,
    .conv { in_channels := 64, out_channels := 3, kernel_size := 7,
            padding := 0, weight := g.w.dec3.weight,
            biasVal := g.w.dec3.biasVal, snSigma := g.w.dec3.snSigma } ]

/-- The method `SRGenerator.forward`: encoder, middle, decoder, then
`x = (torch.tanh(x) + 1) / 2`. -/
def SRGenerator.forward (g : SRGenerator) (x : Tensor) : Option Tensor :=
  (((evalSeq (SRGenerator.encoder g) x).bind
    (applyBlocks false (SRGenerator.blocks g))).bind
      (evalSeq (SRGenerator.decoder g))).map tanhRescale

/-- The parameters a constructed `EdgeGenerator` holds. -/
structure EdgeGeneratorW where
  enc1 : ConvW
  enc2 : ConvW
  enc3 : ConvW
  blockW : Nat → ConvW × ConvW
  dec1 : ConvW
  dec2 : ConvW
  dec3 : ConvW

/-- A constructed `EdgeGenerator`. -/
structure EdgeGenerator where
  residual_blocks : Nat
  use_spectral_norm : Bool
  w : EdgeGeneratorW

/-- The constructor `EdgeGenerator.__init__(scale=4, residual_blocks=8,
use_spectral_norm=True, init_weights=True)`: `scale` is accepted and
discarded. -/
def EdgeGenerator.make (scale : Nat := 4) (residual_blocks : Nat := 8)
    (use_spectral_norm : Bool := true) (w : EdgeGeneratorW) : EdgeGenerator :=
  ⟨residual_blocks, use_spectral_norm, w⟩

/-- The stage `EdgeGenerator.encoder`: every convolution wrapped via
`spectral_norm(·, use_spectral_norm)`. -/
def EdgeGenerator.encoder (g : EdgeGenerator) : List Layer :=
  encoderLayers g.use_spectral_norm g.w.enc1 g.w.enc2 g.w.enc3

/-- The stage `EdgeGenerator.middle`: `residual_blocks` copies of
`ResnetBlock(256, 2, use_spectral_norm=use_spectral_norm)`. -/
def EdgeGenerator.blocks (g : EdgeGenerator) : List (ConvW × ConvW) :=
  (List.range g.residual_blocks).map g.w.blockW

/-- The stage `EdgeGenerator.decoder`: transposed convolutions wrapped via
`spectral_norm(·, use_spectral_norm)`, final 64→1 convolution plain. -/
def EdgeGenerator.decoder (g : EdgeGenerator) : List Layer :=
  decoderLayers g.use_spectral_norm 1 g.w.dec1 g.w.dec2 g.w.dec3

/-- The method `EdgeGenerator.forward`: encoder, middle, decoder, then
`x = torch.sigmoid(x)`. -/
def EdgeGenerator.forward (g : EdgeGenerator) (x : Tensor) : Option Tensor :=
  (((evalSeq (EdgeGenerator.encoder g) x).bind
    (applyBlocks g.use_spectral_norm (EdgeGenerator.blocks g))).bind
      (evalSeq (EdgeGenerator.decoder g))).map sigmoidT

/-- A constructed `EdgeSRModel`: one `EdgeGenerator` and one `SRGenerator`. -/
structure EdgeSRModel where
  edgeGenerator : EdgeGenerator
  srGenerator : SRGenerator

/-- The constructor `EdgeSRModel.__init__(use_spectral_norm=True)`:
`self.EdgeGenerator = EdgeGenerator(use_spectral_norm=use_spectral_norm)`
(so `scale=4`, `residual_blocks=8` defaults) and
`self.SRGenerator = SRGenerator()` (all defaults). -/
def EdgeSRModel.make (use_spectral_norm : Bool := true)
    (ew : EdgeGeneratorW) (sw : SRGeneratorW) : EdgeSRModel :=
  ⟨EdgeGenerator.make 4 8 use_spectral_norm ew, SRGenerator.make 4 8 sw⟩

/-- The method `EdgeSRModel.forward(lr, lr_edges)`: nearest-neighbour upsampling of
both inputs by the hardcoded factor 4, channel concatenation, the edge
generator, concatenation of the upsampled RGB with the predicted edges,
and the SR generator. -/
def EdgeSRModel.forward (m : EdgeSRModel) (lr lr_edges : Tensor) : Option Tensor :=
  let lr_scaled := interpolate lr 4
  let lr_edges_scaled := interpolate lr_edges 4
  (catChannels lr_scaled lr_edges_scaled).bind fun inputs =>
    (EdgeGenerator.forward m.edgeGenerator inputs).bind fun edge_gen =>
      (catChannels lr_scaled edge_gen).bind fun inputs2 =>
        SRGenerator.forward m.srGenerator inputs2

/-- Whether `pat` occurs as a contiguous substring of `s` starting at its
head (helper for `strContains`). -/
def matchesHere : List Char → List Char → Bool
  | [], _ => true
  | _ :: _, [] => false
  | p :: ps, c :: cs => p = c && matchesHere ps cs

/-- Whether `pat` occurs as a contiguous substring of `s` (helper for
`strContains`). -/
def hasSub (pat : List Char) : List Char → Bool
  | [] => matchesHere pat []
  | c :: cs => matchesHere pat (c :: cs) || hasSub pat cs

/-- Python's `s.find(pat) != -1`: `pat` occurs somewhere in `s`. -/
def strContains (s pat : String) : Bool :=
  hasSub pat.toList s.toList

/-- A parameter tensor of a module, for the initializer model: a shape and
the current values. -/
structure PTensor where
  shape : List Nat
  data : List Nat → ℝ

/-- A module as `BaseNetwork.init_weights`'s `init_func` sees it: its class
name and its (possibly absent) `weight` and `bias` parameter tensors. -/
structure PModule where
  classname : String
  weight : Option PTensor
  bias : Option PTensor

/-- The random draws of the numeric engine's in-place initializers
(`nn.init.normal_`, `xavier_normal_`, `kaiming_normal_`, `orthogonal_`):
each returns, for a (mean/gain configuration and) tensor shape, the freshly
sampled value at every index.  In-place mutation means the shape of the
tensor being initialized never changes. -/
structure InitRng where
  normal_ : ℝ → ℝ → List Nat → List Nat → ℝ
  xavier_normal_ : ℝ → List Nat → List Nat → ℝ
  kaiming_normal_ : List Nat → List Nat → ℝ
  orthogonal_ : ℝ → List Nat → List Nat → ℝ

/-- Overwrite a module's weight values in place (shape kept) with draws
from `f`, if the module has a weight. -/
def setWeightData (m : PModule) (f : List Nat → List Nat → ℝ) : PModule :=
  { m with weight := m.weight.map fun t => ⟨t.shape, f t.shape⟩ }

/-- The call `nn.init.constant_(m.bias.data, 0.0)`, applied when the bias exists. -/
def setBiasZero (m : PModule) : PModule :=
  { m with bias := m.bias.map fun t => ⟨t.shape, fun _ => 0⟩ }

/-- The body of `init_func` inside `BaseNetwork.init_weights`: modules
whose class name contains "Conv" or "Linear" and which expose a weight get
that weight re-drawn according to `init_type` (an unrecognized name matches
no branch and leaves the weight alone), and their bias, when present, set
to zero regardless of `init_type`; other modules whose class name contains
"BatchNorm2d" get weight drawn Normal(1.0, gain) and bias zero. -/
def init_func (rng : InitRng) (init_type : String) (gain : ℝ) (m : PModule) : PModule :=
  if m.weight.isSome ∧
      (strContains m.classname "Conv" = true ∨ strContains m.classname "Linear" = true) then
    let m1 :=
      if init_type = "normal" then setWeightData m (rng.normal_ 0 gain)
      else if init_type = "xavier" then setWeightData m (rng.xavier_normal_ gain)
      else if init_type = "kaiming" then setWeightData m rng.kaiming_normal_
      else if init_type = "orthogonal" then setWeightData m (rng.orthogonal_ gain)
      else m
    setBiasZero m1
  else if strContains m.classname "BatchNorm2d" = true then
    setBiasZero (setWeightData m (rng.normal_ 1 gain))
  else m

/-- The method `BaseNetwork.init_weights(init_type="normal", gain=0.02)`: `init_func`
applied (via `self.apply`) to every module of the model, the model being
given as its flattened module list. -/
def init_weights (rng : InitRng) (ms : List PModule)
    (init_type : String := "normal") (gain : ℝ := 2e-2) : List PModule :=
  ms.map (init_func rng init_type gain)

/-- The class names of the modules a `ResnetBlock` contains (itself, its
`conv_block` Sequential, and the layers inside; spectral-norm wrapping does
not change a module's class name). -/
def ResnetBlock.moduleClassnames : List String :=
  ["ResnetBlock", "Sequential", "ReflectionPad2d", "Conv2d", "InstanceNorm2d",
   "ReLU", "ReflectionPad2d", "Conv2d", "InstanceNorm2d"]

/-- The class names of the modules of the shared encoder Sequential. -/
def encoderClassnames : List String :=
  ["Sequential", "ReflectionPad2d", "Conv2d", "InstanceNorm2d", "ReLU",
   "Conv2d", "InstanceNorm2d", "ReLU", "Conv2d", "InstanceNorm2d", "ReLU"]

/-- The class names of the modules of the shared decoder Sequential. -/
def decoderClassnames : List String :=
  ["Sequential", "ConvTranspose2d", "InstanceNorm2d", "ReLU",
   "ConvTranspose2d", "InstanceNorm2d", "ReLU", "ReflectionPad2d", "Conv2d"]

/-- The class names of all modules of a constructed `SRGenerator` with the
given number of residual blocks. -/
def SRGenerator.moduleClassnames (residual_blocks : Nat) : List String :=
  ["SRGenerator"] ++ encoderClassnames ++ ["Sequential"] ++
    (List.range residual_blocks).flatMap (fun _ => ResnetBlock.moduleClassnames) ++
    decoderClassnames

/-- The class names of all modules of a constructed `EdgeGenerator`. -/
def EdgeGenerator.moduleClassnames (residual_blocks : Nat) : List String :=
  ["EdgeGenerator"] ++ encoderClassnames ++ ["Sequential"] ++
    (List.range residual_blocks).flatMap (fun _ => ResnetBlock.moduleClassnames) ++
    decoderClassnames

/-- The class names of all modules of a constructed `EdgeSRModel` (both
generators are built with their default eight residual blocks). -/
def EdgeSRModel.moduleClassnames : List String :=
  ["EdgeSRModel"] ++ EdgeGenerator.moduleClassnames 8 ++ SRGenerator.moduleClassnames 8

/-! ### Shape lemmas for the individual layers -/

@[simp] theorem instanceNorm2d_n (f : Nat) (t : Tensor) : (instanceNorm2d f t).n = t.n := rfl

@[simp] theorem instanceNorm2d_c (f : Nat) (t : Tensor) : (instanceNorm2d f t).c = t.c := rfl

@[simp] theorem instanceNorm2d_h (f : Nat) (t : Tensor) : (instanceNorm2d f t).h = t.h := rfl

@[simp] theorem instanceNorm2d_w (f : Nat) (t : Tensor) : (instanceNorm2d f t).w = t.w := rfl

@[simp] theorem reluT_n (t : Tensor) : (reluT t).n = t.n := rfl

@[simp] theorem reluT_c (t : Tensor) : (reluT t).c = t.c := rfl

@[simp] theorem reluT_h (t : Tensor) : (reluT t).h = t.h := rfl

@[simp] theorem reluT_w (t : Tensor) : (reluT t).w = t.w := rfl

@[simp] theorem sigmoidT_n (t : Tensor) : (sigmoidT t).n = t.n := rfl

@[simp] theorem sigmoidT_c (t : Tensor) : (sigmoidT t).c = t.c := rfl

@[simp] theorem sigmoidT_h (t : Tensor) : (sigmoidT t).h = t.h := rfl

@[simp] theorem sigmoidT_w (t : Tensor) : (sigmoidT t).w = t.w := rfl

@[simp] theorem tanhRescale_n (t : Tensor) : (tanhRescale t).n = t.n := rfl

@[simp] theorem tanhRescale_c (t : Tensor) : (tanhRescale t).c = t.c := rfl

@[simp] theorem tanhRescale_h (t : Tensor) : (tanhRescale t).h = t.h := rfl

@[simp] theorem tanhRescale_w (t : Tensor) : (tanhRescale t).w = t.w := rfl

@[simp] theorem interpolate_n (t : Tensor) (s : Nat) : (interpolate t s).n = t.n := rfl

@[simp] theorem interpolate_c (t : Tensor) (s : Nat) : (interpolate t s).c = t.c := rfl

@[simp] theorem interpolate_h (t : Tensor) (s : Nat) : (interpolate t s).h = t.h * s := rfl

@[simp] theorem interpolate_w (t : Tensor) (s : Nat) : (interpolate t s).w = t.w * s := rfl

theorem reflectionPad2d_shape (p : Nat) (t : Tensor) (hh : p < t.h) (hw : p < t.w) :
    ∃ u, reflectionPad2d p t = some u ∧ u.n = t.n ∧ u.c = t.c ∧
      u.h = t.h + 2 * p ∧ u.w = t.w + 2 * p := by
  rw [reflectionPad2d, if_pos ⟨hh, hw⟩]
  exact ⟨_, rfl, rfl, rfl, rfl, rfl⟩

theorem conv2d_shape (L : Conv2d) (t : Tensor)
    (hc : L.in_channels = t.c) (hs : 0 < L.stride) (hd : 0 < L.dilation)
    (hh : L.dilation * (L.kernel_size - 1) + 1 ≤ t.h + 2 * L.padding)
    (hw : L.dilation * (L.kernel_size - 1) + 1 ≤ t.w + 2 * L.padding) :
    ∃ u, conv2d L t = some u ∧ u.n = t.n ∧ u.c = L.out_channels ∧
      u.h = (t.h + 2 * L.padding - (L.dilation * (L.kernel_size - 1) + 1)) / L.stride + 1 ∧
      u.w = (t.w + 2 * L.padding - (L.dilation * (L.kernel_size - 1) + 1)) / L.stride + 1 := by
  rw [conv2d, if_pos ⟨hc, hs, hd, hh, hw⟩]
  exact ⟨_, rfl, rfl, rfl, rfl, rfl⟩

theorem convTranspose2d_shape (L : ConvTranspose2d) (t : Tensor)
    (hc : L.in_channels = t.c) (hs : 0 < L.stride) (hd : 0 < L.dilation)
    (h0 : 0 < t.h) (w0 : 0 < t.w)
    (hh : 2 * L.padding < (t.h - 1) * L.stride + L.dilation * (L.kernel_size - 1) + 1)
    (hw : 2 * L.padding < (t.w - 1) * L.stride + L.dilation * (L.kernel_size - 1) + 1) :
    ∃ u, convTranspose2d L t = some u ∧ u.n = t.n ∧ u.c = L.out_channels ∧
      u.h = (t.h - 1) * L.stride + L.dilation * (L.kernel_size - 1) + 1 - 2 * L.padding ∧
      u.w = (t.w - 1) * L.stride + L.dilation * (L.kernel_size - 1) + 1 - 2 * L.padding := by
  rw [convTranspose2d, if_pos ⟨hc, hs, hd, h0, w0, hh, hw⟩]
  exact ⟨_, rfl, rfl, rfl, rfl, rfl⟩

/-- A convolution wrapped by `spectral_norm(·, mode)` evaluates like the
convolution itself with the spectral-norm weight scaling when `mode` is on;
either way the hyperparameters, hence the shape behaviour, are those of
the underlying convolution. -/
theorem snconv_shape (c : Conv2d) (usn : Bool) (t : Tensor)
    (hc : c.in_channels = t.c) (hs : 0 < c.stride) (hd : 0 < c.dilation)
    (hh : c.dilation * (c.kernel_size - 1) + 1 ≤ t.h + 2 * c.padding)
    (hw : c.dilation * (c.kernel_size - 1) + 1 ≤ t.w + 2 * c.padding) :
    ∃ u, (spectral_norm (.conv c) usn).eval t = some u ∧ u.n = t.n ∧
      u.c = c.out_channels ∧
      u.h = (t.h + 2 * c.padding - (c.dilation * (c.kernel_size - 1) + 1)) / c.stride + 1 ∧
      u.w = (t.w + 2 * c.padding - (c.dilation * (c.kernel_size - 1) + 1)) / c.stride + 1 := by
  cases usn
  · exact conv2d_shape c t hc hs hd hh hw
  · exact conv2d_shape (snConv c) t hc hs hd hh hw

/-- Shape behaviour of a possibly spectral-normalized transposed
convolution. -/
theorem snconvT_shape (c : ConvTranspose2d) (usn : Bool) (t : Tensor)
    (hc : c.in_channels = t.c) (hs : 0 < c.stride) (hd : 0 < c.dilation)
    (h0 : 0 < t.h) (w0 : 0 < t.w)
    (hh : 2 * c.padding < (t.h - 1) * c.stride + c.dilation * (c.kernel_size - 1) + 1)
    (hw : 2 * c.padding < (t.w - 1) * c.stride + c.dilation * (c.kernel_size - 1) + 1) :
    ∃ u, (spectral_norm (.convTranspose c) usn).eval t = some u ∧ u.n = t.n ∧
      u.c = c.out_channels ∧
      u.h = (t.h - 1) * c.stride + c.dilation * (c.kernel_size - 1) + 1 - 2 * c.padding ∧
      u.w = (t.w - 1) * c.stride + c.dilation * (c.kernel_size - 1) + 1 - 2 * c.padding := by
  cases usn
  · exact convTranspose2d_shape c t hc hs hd h0 w0 hh hw
  · exact convTranspose2d_shape (snConvT c) t hc hs hd h0 w0 hh hw

theorem evalSeq_cons_some {l : Layer} {ls : List Layer} {t t1 : Tensor}
    (h : l.eval t = some t1) : evalSeq (l :: ls) t = evalSeq ls t1 := by
  simp [evalSeq, h]

theorem evalSeq_instanceNorm_cons (f : Nat) (ls : List Layer) (t : Tensor) :
    evalSeq (.instanceNorm f :: ls) t = evalSeq ls (instanceNorm2d f t) := rfl

theorem evalSeq_reLU_cons (ls : List Layer) (t : Tensor) :
    evalSeq (.reLU :: ls) t = evalSeq ls (reluT t) := rfl

theorem evalSeq_reflectionPad_cons {p : Nat} {ls : List Layer} {t t1 : Tensor}
    (h : reflectionPad2d p t = some t1) :
    evalSeq (.reflectionPad p :: ls) t = evalSeq ls t1 := evalSeq_cons_some h

theorem evalSeq_conv_cons {c : Conv2d} {ls : List Layer} {t t1 : Tensor}
    (h : conv2d c t = some t1) :
    evalSeq (.conv c :: ls) t = evalSeq ls t1 := evalSeq_cons_some h

theorem evalSeq_convT_cons {c : ConvTranspose2d} {ls : List Layer} {t t1 : Tensor}
    (h : convTranspose2d c t = some t1) :
    evalSeq (.convTranspose c :: ls) t = evalSeq ls t1 := evalSeq_cons_some h

theorem encoderLayers_shape (usn : Bool) (c1 c2 c3 : ConvW) (x : Tensor) (a b : Nat)
    (hc : x.c = 4) (hh : x.h = 4 * a) (hw : x.w = 4 * b) (ha : 0 < a) (hb : 0 < b) :
    ∃ u, evalSeq (encoderLayers usn c1 c2 c3) x = some u ∧
      u.n = x.n ∧ u.c = 256 ∧ u.h = a ∧ u.w = b := by
  obtain ⟨t1, e1, n1, c1', h1, w1⟩ := reflectionPad2d_shape 3 x (by omega) (by omega)
  obtain ⟨t2, e2, n2, c2', h2, w2⟩ :=
    snconv_shape { in_channels := 4, out_channels := 64, kernel_size := 7,
                   padding := 0, weight := c1.weight, biasVal := c1.biasVal,
                   snSigma := c1.snSigma } usn t1
      (show (4 : Nat) = t1.c by omega) (by dsimp only; decide) (by dsimp only; decide)
      (show (7 : Nat) ≤ t1.h + 2 * 0 by omega) (show (7 : Nat) ≤ t1.w + 2 * 0 by omega)
  dsimp only at c2' h2 w2
  obtain ⟨t3, e3, n3, c3', h3, w3⟩ :=
    snconv_shape { in_channels := 64, out_channels := 128, kernel_size := 4,
                   stride := 2, padding := 1, weight := c2.weight,
                   biasVal := c2.biasVal, snSigma := c2.snSigma } usn
      (reluT (instanceNorm2d 64 t2))
      (show (64 : Nat) = t2.c by omega) (by dsimp only; decide) (by dsimp only; decide)
      (show (4 : Nat) ≤ t2.h + 2 * 1 by omega) (show (4 : Nat) ≤ t2.w + 2 * 1 by omega)
  simp only [reluT_n, reluT_c, reluT_h, reluT_w, instanceNorm2d_n, instanceNorm2d_c,
    instanceNorm2d_h, instanceNorm2d_w] at n3 c3' h3 w3
  obtain ⟨t4, e4, n4, c4', h4, w4⟩ :=
    snconv_shape { in_channels := 128, out_channels := 256, kernel_size := 4,
                   stride := 2, padding := 1, weight := c3.weight,
                   biasVal := c3.biasVal, snSigma := c3.snSigma } usn
      (reluT (instanceNorm2d 128 t3))
      (show (128 : Nat) = t3.c by omega) (by dsimp only; decide) (by dsimp only; decide)
      (show (4 : Nat) ≤ t3.h + 2 * 1 by omega) (show (4 : Nat) ≤ t3.w + 2 * 1 by omega)
  simp only [reluT_n, reluT_c, reluT_h, reluT_w, instanceNorm2d_n, instanceNorm2d_c,
    instanceNorm2d_h, instanceNorm2d_w] at n4 c4' h4 w4
  refine ⟨reluT (instanceNorm2d 256 t4), ?_, ?_, ?_, ?_, ?_⟩
  · simp only [encoderLayers]
    rw [evalSeq_reflectionPad_cons e1, evalSeq_cons_some e2, evalSeq_instanceNorm_cons,
      evalSeq_reLU_cons, evalSeq_cons_some e3, evalSeq_instanceNorm_cons,
      evalSeq_reLU_cons, evalSeq_cons_some e4, evalSeq_instanceNorm_cons,
      evalSeq_reLU_cons]
    rfl
  · simp only [reluT_n, instanceNorm2d_n]; omega
  · simp only [reluT_c, instanceNorm2d_c]; omega
  · simp only [reluT_h, instanceNorm2d_h]; omega
  · simp only [reluT_w, instanceNorm2d_w]; omega

theorem decoderLayers_shape (usn : Bool) (cout : Nat) (d1 d2 d3 : ConvW) (y : Tensor)
    (hc : y.c = 256) (h0 : 0 < y.h) (w0 : 0 < y.w) :
    ∃ z, evalSeq (decoderLayers usn cout d1 d2 d3) y = some z ∧
      z.n = y.n ∧ z.c = cout ∧ z.h = 4 * y.h ∧ z.w = 4 * y.w := by
  obtain ⟨t1, e1, n1, c1', h1, w1⟩ :=
    snconvT_shape { in_channels := 256, out_channels := 128, kernel_size := 4,
                    stride := 2, padding := 1, weight := d1.weight,
                    biasVal := d1.biasVal, snSigma := d1.snSigma } usn y
      (show (256 : Nat) = y.c by omega) (by dsimp only; decide) (by dsimp only; decide)
      h0 w0 (show 2 * 1 < (y.h - 1) * 2 + 1 * (4 - 1) + 1 by omega)
      (show 2 * 1 < (y.w - 1) * 2 + 1 * (4 - 1) + 1 by omega)
  dsimp only at c1' h1 w1
  obtain ⟨t2, e2, n2, c2', h2, w2⟩ :=
    snconvT_shape { in_channels := 128, out_channels := 64, kernel_size := 4,
                    stride := 2, padding := 1, weight := d2.weight,
                    biasVal := d2.biasVal, snSigma := d2.snSigma } usn
      (reluT (instanceNorm2d 128 t1))
      (show (128 : Nat) = t1.c by omega) (by dsimp only; decide) (by dsimp only; decide)
      (show 0 < t1.h by omega) (show 0 < t1.w by omega)
      (show 2 * 1 < (t1.h - 1) * 2 + 1 * (4 - 1) + 1 by omega)
      (show 2 * 1 < (t1.w - 1) * 2 + 1 * (4 - 1) + 1 by omega)
  simp only [reluT_n, reluT_c, reluT_h, reluT_w, instanceNorm2d_n, instanceNorm2d_c,
    instanceNorm2d_h, instanceNorm2d_w] at n2 c2' h2 w2
  obtain ⟨t3, e3, n3, c3', h3, w3⟩ :=
    reflectionPad2d_shape 3 (reluT (instanceNorm2d 64 t2))
      (show (3 : Nat) < t2.h by omega) (show (3 : Nat) < t2.w by omega)
  simp only [reluT_n, reluT_c, reluT_h, reluT_w, instanceNorm2d_n, instanceNorm2d_c,
    instanceNorm2d_h, instanceNorm2d_w] at n3 c3' h3 w3
  obtain ⟨t4, e4, n4, c4', h4, w4⟩ :=
    conv2d_shape { in_channels := 64, out_channels := cout, kernel_size := 7,
                   padding := 0, weight := d3.weight, biasVal := d3.biasVal,
                   snSigma := d3.snSigma } t3
      (show (64 : Nat) = t3.c by omega) (by dsimp only; decide) (by dsimp only; decide)
      (show (7 : Nat) ≤ t3.h + 2 * 0 by omega) (show (7 : Nat) ≤ t3.w + 2 * 0 by omega)
  dsimp only at c4' h4 w4
  refine ⟨t4, ?_, by omega, by omega, by omega, by omega⟩
  simp only [decoderLayers]
  rw [evalSeq_cons_some e1, evalSeq_instanceNorm_cons, evalSeq_reLU_cons,
    evalSeq_cons_some e2, evalSeq_instanceNorm_cons, evalSeq_reLU_cons,
    evalSeq_reflectionPad_cons e3, evalSeq_conv_cons e4]
  rfl

theorem conv_block_shape (dim dilation : Nat) (usn : Bool) (w1 w2 : ConvW) (x : Tensor)
    (hc : x.c = dim) (hd : 0 < dilation) (hh : dilation < x.h) (hw : dilation < x.w) :
    ∃ y, evalSeq (ResnetBlock.conv_block dim dilation usn w1 w2) x = some y ∧
      y.n = x.n ∧ y.c = x.c ∧ y.h = x.h ∧ y.w = x.w := by
  obtain ⟨t1, e1, n1, c1', h1, w1'⟩ := reflectionPad2d_shape dilation x hh hw
  obtain ⟨t2, e2, n2, c2', h2, w2'⟩ :=
    snconv_shape { in_channels := dim, out_channels := dim, kernel_size := 3,
                   padding := 0, dilation := dilation, bias := !usn,
                   weight := w1.weight, biasVal := w1.biasVal, snSigma := w1.snSigma }
      usn t1 (show dim = t1.c by omega) (by dsimp only; decide) (by dsimp only; omega)
      (show dilation * (3 - 1) + 1 ≤ t1.h + 2 * 0 by omega)
      (show dilation * (3 - 1) + 1 ≤ t1.w + 2 * 0 by omega)
  dsimp only at c2' h2 w2'
  obtain ⟨t3, e3, n3, c3', h3, w3'⟩ :=
    reflectionPad2d_shape 1 (reluT (instanceNorm2d dim t2))
      (show (1 : Nat) < t2.h by omega) (show (1 : Nat) < t2.w by omega)
  simp only [reluT_n, reluT_c, reluT_h, reluT_w, instanceNorm2d_n, instanceNorm2d_c,
    instanceNorm2d_h, instanceNorm2d_w] at n3 c3' h3 w3'
  obtain ⟨t4, e4, n4, c4', h4, w4'⟩ :=
    snconv_shape { in_channels := dim, out_channels := dim, kernel_size := 3,
                   padding := 0, dilation := 1, bias := !usn,
                   weight := w2.weight, biasVal := w2.biasVal, snSigma := w2.snSigma }
      usn t3 (show dim = t3.c by omega) (by dsimp only; decide) (by dsimp only; decide)
      (show 1 * (3 - 1) + 1 ≤ t3.h + 2 * 0 by omega)
      (show 1 * (3 - 1) + 1 ≤ t3.w + 2 * 0 by omega)
  dsimp only at c4' h4 w4'
  refine ⟨instanceNorm2d dim t4, ?_, by simp; omega, by simp; omega, by simp; omega,
    by simp; omega⟩
  simp only [ResnetBlock.conv_block]
  rw [evalSeq_reflectionPad_cons e1, evalSeq_cons_some e2, evalSeq_instanceNorm_cons,
    evalSeq_reLU_cons, evalSeq_reflectionPad_cons e3, evalSeq_cons_some e4,
    evalSeq_instanceNorm_cons]
  rfl

theorem resnetBlock_forward_shape (dim dilation : Nat) (usn : Bool) (w1 w2 : ConvW)
    (x : Tensor) (hc : x.c = dim) (hd : 0 < dilation) (hh : dilation < x.h)
    (hw : dilation < x.w) :
    ∃ z, ResnetBlock.forward dim dilation usn w1 w2 x = some z ∧
      z.n = x.n ∧ z.c = x.c ∧ z.h = x.h ∧ z.w = x.w := by
  obtain ⟨y, ey, ny, cy, hy, wy⟩ := conv_block_shape dim dilation usn w1 w2 x hc hd hh hw
  refine ⟨⟨x.n, x.c, x.h, x.w, fun b c i j => x.data b c i j + y.data b c i j⟩, ?_,
    rfl, rfl, rfl, rfl⟩
  rw [ResnetBlock.forward, ey]
  show tensorAdd x y = _
  rw [tensorAdd, if_pos ⟨ny.symm, cy.symm, hy.symm, wy.symm⟩]

theorem applyBlocks_shape (usn : Bool) (ws : List (ConvW × ConvW)) (t : Tensor)
    (hc : t.c = 256) (hh : 3 ≤ t.h) (hw : 3 ≤ t.w) :
    ∃ u, applyBlocks usn ws t = some u ∧ u.n = t.n ∧ u.c = t.c ∧ u.h = t.h ∧ u.w = t.w := by
  induction ws generalizing t with
  | nil => exact ⟨t, rfl, rfl, rfl, rfl, rfl⟩
  | cons head tail ih =>
    obtain ⟨y, ey, ny, cy, hy, wy⟩ :=
      resnetBlock_forward_shape 256 2 usn head.1 head.2 t hc (by omega) (by omega) (by omega)
    obtain ⟨u, eu, nu, cu, hu, wu⟩ := ih y (by omega) (by omega) (by omega)
    refine ⟨u, ?_, by omega, by omega, by omega, by omega⟩
    show (ResnetBlock.forward 256 2 usn head.1 head.2 t).bind (applyBlocks usn tail) = some u
    rw [ey]
    exact eu

theorem pipeline_shape (usn : Bool) (c1 c2 c3 : ConvW) (bws : List (ConvW × ConvW))
    (cout : Nat) (d1 d2 d3 : ConvW) (x : Tensor) (a b : Nat)
    (hc : x.c = 4) (hh : x.h = 4 * a) (hw : x.w = 4 * b) (ha : 0 < a) (hb : 0 < b)
    (hmid : bws = [] ∨ (3 ≤ a ∧ 3 ≤ b)) :
    ∃ z, ((evalSeq (encoderLayers usn c1 c2 c3) x).bind (applyBlocks usn bws)).bind
        (evalSeq (decoderLayers usn cout d1 d2 d3)) = some z ∧
      z.n = x.n ∧ z.c = cout ∧ z.h = x.h ∧ z.w = x.w := by
  obtain ⟨u, eu, nu, cu, hu, wu⟩ := encoderLayers_shape usn c1 c2 c3 x a b hc hh hw ha hb
  have hmidApp : ∃ v, applyBlocks usn bws u = some v ∧ v.n = u.n ∧ v.c = u.c ∧
      v.h = u.h ∧ v.w = u.w := by
    rcases hmid with rfl | ⟨h3a, h3b⟩
    · exact ⟨u, rfl, rfl, rfl, rfl, rfl⟩
    · exact applyBlocks_shape usn bws u (by omega) (by omega) (by omega)
  obtain ⟨v, ev, nv, cv, hv, wv⟩ := hmidApp
  obtain ⟨z, ez, nz, cz, hz, wz⟩ :=
    decoderLayers_shape usn cout d1 d2 d3 v (by omega) (by omega) (by omega)
  refine ⟨z, ?_, by omega, by omega, by omega, by omega⟩
  rw [eu]
  show (applyBlocks usn bws u).bind (evalSeq (decoderLayers usn cout d1 d2 d3)) = some z
  rw [ev]
  exact ez

theorem edgeGenerator_forward_shape (g : EdgeGenerator) (x : Tensor)
    (hc : x.c = 4) (hH : 4 ∣ x.h) (hW : 4 ∣ x.w) (h0 : 0 < x.h) (w0 : 0 < x.w)
    (hmid : EdgeGenerator.blocks g = [] ∨ (12 ≤ x.h ∧ 12 ≤ x.w)) :
    ∃ z, ((evalSeq (EdgeGenerator.encoder g) x).bind
        (applyBlocks g.use_spectral_norm (EdgeGenerator.blocks g))).bind
          (evalSeq (EdgeGenerator.decoder g)) = some z ∧
      EdgeGenerator.forward g x = some (sigmoidT z) ∧
      z.n = x.n ∧ z.c = 1 ∧ z.h = x.h ∧ z.w = x.w := by
  obtain ⟨a, ha⟩ := hH
  obtain ⟨b, hb⟩ := hW
  obtain ⟨z, ez, nz, cz, hz, wz⟩ :=
    pipeline_shape g.use_spectral_norm g.w.enc1 g.w.enc2 g.w.enc3
      (EdgeGenerator.blocks g) 1 g.w.dec1 g.w.dec2 g.w.dec3 x a b hc ha hb
      (by omega) (by omega)
      (by rcases hmid with h | ⟨h12a, h12b⟩
          · exact Or.inl h
          · exact Or.inr ⟨by omega, by omega⟩)
  refine ⟨z, ez, ?_, nz, cz, hz, wz⟩
  rw [EdgeGenerator.forward]
  rw [show ((evalSeq (EdgeGenerator.encoder g) x).bind
        (applyBlocks g.use_spectral_norm (EdgeGenerator.blocks g))).bind
          (evalSeq (EdgeGenerator.decoder g)) = some z from ez]
  rfl

theorem srGenerator_forward_shape (g : SRGenerator) (x : Tensor)
    (hc : x.c = 4) (hH : 4 ∣ x.h) (hW : 4 ∣ x.w) (h0 : 0 < x.h) (w0 : 0 < x.w)
    (hmid : SRGenerator.blocks g = [] ∨ (12 ≤ x.h ∧ 12 ≤ x.w)) :
    ∃ z, ((evalSeq (SRGenerator.encoder g) x).bind
        (applyBlocks false (SRGenerator.blocks g))).bind
          (evalSeq (SRGenerator.decoder g)) = some z ∧
      SRGenerator.forward g x = some (tanhRescale z) ∧
      z.n = x.n ∧ z.c = 3 ∧ z.h = x.h ∧ z.w = x.w := by
  obtain ⟨a, ha⟩ := hH
  obtain ⟨b, hb⟩ := hW
  obtain ⟨z, ez, nz, cz, hz, wz⟩ :=
    pipeline_shape false g.w.enc1 g.w.enc2 g.w.enc3
      (SRGenerator.blocks g) 3 g.w.dec1 g.w.dec2 g.w.dec3 x a b hc ha hb
      (by omega) (by omega)
      (by rcases hmid with h | ⟨h12a, h12b⟩
          · exact Or.inl h
          · exact Or.inr ⟨by omega, by omega⟩)
  refine ⟨z, ez, ?_, nz, cz, hz, wz⟩
  rw [SRGenerator.forward]
  rw [show ((evalSeq (SRGenerator.encoder g) x).bind
        (applyBlocks false (SRGenerator.blocks g))).bind
          (evalSeq (SRGenerator.decoder g)) = some z from ez]
  rfl

theorem conv2d_some_channels {L : Conv2d} {t u : Tensor} (h : conv2d L t = some u) :
    u.n = t.n ∧ u.c = L.out_channels := by
  rw [conv2d] at h
  split at h
  · cases h; exact ⟨rfl, rfl⟩
  · cases h

theorem evalSeq_cons_eq_some {l : Layer} {ls : List Layer} {t u : Tensor}
    (h : evalSeq (l :: ls) t = some u) :
    ∃ t1, l.eval t = some t1 ∧ evalSeq ls t1 = some u :=
  Option.bind_eq_some.mp h

theorem evalSeq_decoder_out_c {usn : Bool} {cout : Nat} {d1 d2 d3 : ConvW} {y z : Tensor}
    (h : evalSeq (decoderLayers usn cout d1 d2 d3) y = some z) : z.c = cout := by
  obtain ⟨t1, _, h⟩ := evalSeq_cons_eq_some h
  obtain ⟨t2, _, h⟩ := evalSeq_cons_eq_some h
  obtain ⟨t3, _, h⟩ := evalSeq_cons_eq_some h
  obtain ⟨t4, _, h⟩ := evalSeq_cons_eq_some h
  obtain ⟨t5, _, h⟩ := evalSeq_cons_eq_some h
  obtain ⟨t6, _, h⟩ := evalSeq_cons_eq_some h
  obtain ⟨t7, _, h⟩ := evalSeq_cons_eq_some h
  obtain ⟨t8, e8, h⟩ := evalSeq_cons_eq_some h
  have hz : t8 = z := Option.some.inj h
  subst hz
  exact (conv2d_some_channels e8).2

theorem edgeGenerator_out_channels {g : EdgeGenerator} {t u : Tensor}
    (h : EdgeGenerator.forward g t = some u) : u.c = 1 := by
  rw [EdgeGenerator.forward] at h
  obtain ⟨z, hz, hu⟩ := Option.map_eq_some'.mp h
  obtain ⟨y, _, hdec⟩ := Option.bind_eq_some.mp hz
  have hc : z.c = 1 := evalSeq_decoder_out_c hdec
  subst hu
  simpa using hc

theorem srGenerator_out_channels {g : SRGenerator} {t u : Tensor}
    (h : SRGenerator.forward g t = some u) : u.c = 3 := by
  rw [SRGenerator.forward] at h
  obtain ⟨z, hz, hu⟩ := Option.map_eq_some'.mp h
  obtain ⟨y, _, hdec⟩ := Option.bind_eq_some.mp hz
  have hdec2 : evalSeq (decoderLayers false 3 g.w.dec1 g.w.dec2 g.w.dec3) y = some z := hdec
  have hc : z.c = 3 := evalSeq_decoder_out_c hdec2
  subst hu
  simpa using hc

theorem tanh_mem_Ioo (v : ℝ) : -1 < Real.tanh v ∧ Real.tanh v < 1 := by
  constructor
  · rw [Real.tanh_eq_sinh_div_cosh, lt_div_iff₀ (Real.cosh_pos v)]
    nlinarith [Real.cosh_add_sinh v, Real.exp_pos v]
  · rw [Real.tanh_eq_sinh_div_cosh, div_lt_one (Real.cosh_pos v)]
    exact Real.sinh_lt_cosh v

theorem tanhRescale_range (t : Tensor) (b c i j : Nat) :
    0 ≤ (tanhRescale t).data b c i j ∧ (tanhRescale t).data b c i j ≤ 1 := by
  obtain ⟨h1, h2⟩ := tanh_mem_Ioo (t.data b c i j)
  constructor
  · show 0 ≤ (Real.tanh (t.data b c i j) + 1) / 2
    linarith
  · show (Real.tanh (t.data b c i j) + 1) / 2 ≤ 1
    linarith

theorem sigmoidT_range (t : Tensor) (b c i j : Nat) :
    0 < (sigmoidT t).data b c i j ∧ (sigmoidT t).data b c i j < 1 := by
  have he : 0 < Real.exp (-(t.data b c i j)) := Real.exp_pos _
  constructor
  · show 0 < 1 / (1 + Real.exp (-(t.data b c i j)))
    positivity
  · show 1 / (1 + Real.exp (-(t.data b c i j))) < 1
    rw [div_lt_one (by linarith)]
    linarith

theorem catChannels_shape (x y : Tensor) (hn : x.n = y.n) (hh : x.h = y.h) (hw : x.w = y.w) :
    ∃ u, catChannels x y = some u ∧ u.n = x.n ∧ u.c = x.c + y.c ∧ u.h = x.h ∧ u.w = x.w := by
  rw [catChannels, if_pos ⟨hn, hh, hw⟩]
  exact ⟨_, rfl, rfl, rfl, rfl, rfl⟩

theorem edgeSRModel_forward_shape (m : EdgeSRModel) (lr lr_edges : Tensor)
    (hc3 : lr.c = 3) (hc1 : lr_edges.c = 1)
    (hn : lr_edges.n = lr.n) (hh : lr_edges.h = lr.h) (hw : lr_edges.w = lr.w)
    (hH : 4 ∣ lr.h) (hW : 4 ∣ lr.w) (h0 : 0 < lr.h) (w0 : 0 < lr.w) :
    ∃ out, EdgeSRModel.forward m lr lr_edges = some out ∧
      out.n = lr.n ∧ out.c = 3 ∧ out.h = 4 * lr.h ∧ out.w = 4 * lr.w := by
  obtain ⟨i1, e1, n1, c1', h1, w1⟩ :=
    catChannels_shape (interpolate lr 4) (interpolate lr_edges 4)
      (by simp [hn]) (by simp [hh]) (by simp [hw])
  simp only [interpolate_n, interpolate_c, interpolate_h, interpolate_w] at n1 c1' h1 w1
  obtain ⟨z, ez, fz, nz, cz, hz, wz⟩ :=
    edgeGenerator_forward_shape m.edgeGenerator i1 (by omega) (by omega) (by omega)
      (by omega) (by omega) (Or.inr ⟨by omega, by omega⟩)
  obtain ⟨i2, e2, n2, c2', h2, w2⟩ :=
    catChannels_shape (interpolate lr 4) (sigmoidT z)
      (by simp; omega) (by simp; omega) (by simp; omega)
  simp only [interpolate_n, interpolate_c, interpolate_h, interpolate_w,
    sigmoidT_n, sigmoidT_c, sigmoidT_h, sigmoidT_w] at n2 c2' h2 w2
  obtain ⟨z2, ez2, fz2, nz2, cz2, hz2, wz2⟩ :=
    srGenerator_forward_shape m.srGenerator i2 (by omega) (by omega) (by omega)
      (by omega) (by omega) (Or.inr ⟨by omega, by omega⟩)
  refine ⟨tanhRescale z2, ?_, by simp; omega, by simp; omega, by simp; omega, by simp; omega⟩
  rw [EdgeSRModel.forward]
  show (catChannels (interpolate lr 4) (interpolate lr_edges 4)).bind _ = _
  rw [e1, Option.some_bind, fz, Option.some_bind, e2, Option.some_bind]
  exact fz2

theorem setWeightData_shape (m : PModule) (f : List Nat → List Nat → ℝ) :
    (setWeightData m f).weight.map PTensor.shape = m.weight.map PTensor.shape := by
  rcases hw : m.weight with _ | t <;> simp [setWeightData, hw]

theorem setWeightData_bias (m : PModule) (f : List Nat → List Nat → ℝ) :
    (setWeightData m f).bias = m.bias := rfl

theorem setBiasZero_weight (m : PModule) : (setBiasZero m).weight = m.weight := rfl

theorem init_func_weight_shape (rng : InitRng) (ty : String) (gain : ℝ) (m : PModule) :
    (init_func rng ty gain m).weight.map PTensor.shape = m.weight.map PTensor.shape := by
  rw [init_func]
  split
  · show (setBiasZero _).weight.map PTensor.shape = _
    rw [setBiasZero_weight]
    split
    · exact setWeightData_shape m _
    · split
      · exact setWeightData_shape m _
      · split
        · exact setWeightData_shape m _
        · split
          · exact setWeightData_shape m _
          · rfl
  · split
    · show (setBiasZero (setWeightData m _)).weight.map PTensor.shape = _
      rw [setBiasZero_weight]
      exact setWeightData_shape m _
    · rfl

theorem init_func_bias_zero (rng : InitRng) (ty : String) (gain : ℝ) (m : PModule)
    (hw : m.weight.isSome = true)
    (hcl : strContains m.classname "Conv" = true ∨ strContains m.classname "Linear" = true) :
    (init_func rng ty gain m).bias = m.bias.map (fun t => ⟨t.shape, fun idx => 0⟩) := by
  rw [init_func, if_pos ⟨hw, hcl⟩]
  split
  · rfl
  · split
    · rfl
    · split
      · rfl
      · split
        · rfl
        · rfl

theorem init_func_weight_of_unrecognized (rng : InitRng) (ty : String) (gain : ℝ)
    (m : PModule)
    (hty : ty ∉ (["normal", "xavier", "kaiming", "orthogonal"] : List String))
    (hbn : strContains m.classname "BatchNorm2d" = false) :
    (init_func rng ty gain m).weight = m.weight := by
  simp only [List.mem_cons, List.not_mem_nil, or_false, not_or] at hty
  obtain ⟨h1, h2, h3, h4⟩ := hty
  rw [init_func]
  simp only [if_neg h1, if_neg h2, if_neg h3, if_neg h4]
  split
  · rfl
  · split
    · rename_i hB
      rw [hbn] at hB
      cases hB
    · rfl

theorem init_func_weight_of_unrecognized_convlinear (rng : InitRng) (ty : String)
    (gain : ℝ) (m : PModule)
    (hty : ty ∉ (["normal", "xavier", "kaiming", "orthogonal"] : List String))
    (hw : m.weight.isSome = true)
    (hcl : strContains m.classname "Conv" = true ∨ strContains m.classname "Linear" = true) :
    (init_func rng ty gain m).weight = m.weight := by
  simp only [List.mem_cons, List.not_mem_nil, or_false, not_or] at hty
  obtain ⟨h1, h2, h3, h4⟩ := hty
  rw [init_func, if_pos ⟨hw, hcl⟩, if_neg h1, if_neg h2, if_neg h3, if_neg h4]
  rfl

theorem moduleClassnames_no_batchnorm :
    ∀ s ∈ EdgeSRModel.moduleClassnames, strContains s "BatchNorm2d" = false := by
  decide

/-! ### Concrete instances used by the witness theorems -/

/-- A concrete all-zero convolution parameter set. -/
def zeroConvW : ConvW := ⟨fun _ _ _ _ => 0, fun _ => 0, 1⟩

/-- A concrete all-zero tensor of the given shape. -/
def tIn (n c h w : Nat) : Tensor := ⟨n, c, h, w, fun _ _ _ _ => 0⟩

/-- Concrete `SRGenerator` parameters. -/
def sw0 : SRGeneratorW :=
  ⟨zeroConvW, zeroConvW, zeroConvW, fun _ => (zeroConvW, zeroConvW),
   zeroConvW, zeroConvW, zeroConvW⟩

/-- Concrete `EdgeGenerator` parameters. -/
def ew0 : EdgeGeneratorW :=
  ⟨zeroConvW, zeroConvW, zeroConvW, fun _ => (zeroConvW, zeroConvW),
   zeroConvW, zeroConvW, zeroConvW⟩

/-- A concrete `EdgeSRModel` (default construction parameters). -/
def m0 : EdgeSRModel := EdgeSRModel.make true ew0 sw0

/-- A concrete `SRGenerator` with no residual blocks. -/
def sr0 : SRGenerator := SRGenerator.make 4 0 sw0

/-- Concrete random draws for the initializer model. -/
def rng0 : InitRng := ⟨fun _ _ _ _ => 0, fun _ _ _ => 0, fun _ _ => 0, fun _ _ _ => 0⟩

/-- A concrete convolution module for the initializer model. -/
def mConv : PModule :=
  ⟨"Conv2d", some ⟨[64, 4, 7, 7], fun _ => 1⟩, some ⟨[64], fun _ => 1⟩⟩

/-! ### The claims -/

/-- C1: for every input pair of a low-resolution RGB tensor of shape
(B, 3, H, W) and a low-resolution edge tensor of shape (B, 1, H, W) with
H and W divisible by 4 (and nonempty), `EdgeSRModel.forward` returns a
tensor of shape (B, 3, 4H, 4W). -/
theorem claim_C1_edgeSRModel_output_shape (m : EdgeSRModel) (lr lr_edges : Tensor)
    (B H W : Nat) (hlr : lr.shape = (B, 3, H, W)) (hed : lr_edges.shape = (B, 1, H, W))
    (hH : 4 ∣ H) (hW : 4 ∣ W) (h0 : 0 < H) (w0 : 0 < W) :
    ∃ out, EdgeSRModel.forward m lr lr_edges = some out ∧
      out.shape = (B, 3, 4 * H, 4 * W) := by
  simp only [Tensor.shape, Prod.mk.injEq] at hlr hed
  obtain ⟨hn, hc, hh, hw⟩ := hlr
  obtain ⟨hn', hc', hh', hw'⟩ := hed
  obtain ⟨out, hout, n1, c1, h1, w1⟩ :=
    edgeSRModel_forward_shape m lr lr_edges hc hc' (by omega) (by omega) (by omega)
      (by omega) (by omega) (by omega) (by omega)
  refine ⟨out, hout, ?_⟩
  simp only [Tensor.shape, Prod.mk.injEq]
  omega

/-- C1 witness: a (1, 3, 4, 4) RGB input and (1, 1, 4, 4) edge input
yield an output of shape (1, 3, 16, 16). -/
theorem claim_C1_witness :
    ∃ out, EdgeSRModel.forward m0 (tIn 1 3 4 4) (tIn 1 1 4 4) = some out ∧
      out.shape = (1, 3, 4 * 4, 4 * 4) :=
  claim_C1_edgeSRModel_output_shape m0 (tIn 1 3 4 4) (tIn 1 1 4 4) 1 4 4
    rfl rfl (by decide) (by decide) (by decide) (by decide)

/-- C2: `EdgeSRModel.forward` is exactly the composition: upsample both
inputs by nearest-neighbour interpolation with fixed factor 4,
concatenate along channels, apply `EdgeGenerator` (whose output is
1-channel), concatenate the upsampled RGB (not the original) with the
predicted edge map, apply `SRGenerator` (whose output is 3-channel), and
return that result only. -/
theorem claim_C2_edgeSRModel_pipeline (m : EdgeSRModel) (lr lr_edges : Tensor) :
    (EdgeSRModel.forward m lr lr_edges =
      (catChannels (interpolate lr 4) (interpolate lr_edges 4)).bind fun inputs =>
        (EdgeGenerator.forward m.edgeGenerator inputs).bind fun edge_gen =>
          (catChannels (interpolate lr 4) edge_gen).bind fun inputs2 =>
            SRGenerator.forward m.srGenerator inputs2) ∧
    (∀ t u, EdgeGenerator.forward m.edgeGenerator t = some u → u.c = 1) ∧
    (∀ t u, SRGenerator.forward m.srGenerator t = some u → u.c = 3) :=
  ⟨rfl, fun _ _ h => edgeGenerator_out_channels h,
    fun _ _ h => srGenerator_out_channels h⟩

/-- C2 witness: the pipeline equation instantiated at a concrete model and
inputs, and the channel facts at a concrete intermediate tensor. -/
theorem claim_C2_witness :
    (EdgeSRModel.forward m0 (tIn 1 3 4 4) (tIn 1 1 4 4) =
      (catChannels (interpolate (tIn 1 3 4 4) 4) (interpolate (tIn 1 1 4 4) 4)).bind
        fun inputs => (EdgeGenerator.forward m0.edgeGenerator inputs).bind
          fun edge_gen => (catChannels (interpolate (tIn 1 3 4 4) 4) edge_gen).bind
            fun inputs2 => SRGenerator.forward m0.srGenerator inputs2) ∧
    (∃ u, EdgeGenerator.forward m0.edgeGenerator (tIn 1 4 16 16) = some u ∧ u.c = 1) := by
  obtain ⟨z, _, fz, _, _, _, _⟩ :=
    edgeGenerator_forward_shape m0.edgeGenerator (tIn 1 4 16 16) rfl (by decide)
      (by decide) (by decide) (by decide) (Or.inr (by decide))
  exact ⟨(claim_C2_edgeSRModel_pipeline m0 (tIn 1 3 4 4) (tIn 1 1 4 4)).1,
    sigmoidT z, fz,
    (claim_C2_edgeSRModel_pipeline m0 (tIn 1 3 4 4) (tIn 1 1 4 4)).2.1 _ _ fz⟩

/-- C3: whenever `SRGenerator.forward` returns a tensor, that tensor is the
raw decoder output passed through `(tanh(x) + 1) / 2`, and every one of its
values lies in the closed interval [0, 1]. -/
theorem claim_C3_srGenerator_output_range (g : SRGenerator) (x out : Tensor)
    (hf : SRGenerator.forward g x = some out) :
    (∃ z, ((evalSeq (SRGenerator.encoder g) x).bind
        (applyBlocks false (SRGenerator.blocks g))).bind
          (evalSeq (SRGenerator.decoder g)) = some z ∧ out = tanhRescale z) ∧
    ∀ b c i j, 0 ≤ out.data b c i j ∧ out.data b c i j ≤ 1 := by
  rw [SRGenerator.forward] at hf
  obtain ⟨z, hz, hu⟩ := Option.map_eq_some'.mp hf
  subst hu
  exact ⟨⟨z, hz, rfl⟩, fun b c i j => tanhRescale_range z b c i j⟩

/-- C3 witness: a concrete forward pass whose output values all lie in
[0, 1]. -/
theorem claim_C3_witness :
    ∃ out, SRGenerator.forward sr0 (tIn 1 4 4 4) = some out ∧
      ∀ b c i j, 0 ≤ out.data b c i j ∧ out.data b c i j ≤ 1 := by
  obtain ⟨z, _, fz, _, _, _, _⟩ :=
    srGenerator_forward_shape sr0 (tIn 1 4 4 4) rfl (by decide) (by decide)
      (by decide) (by decide) (Or.inl rfl)
  exact ⟨tanhRescale z, fz,
    fun b c i j => (claim_C3_srGenerator_output_range sr0 (tIn 1 4 4 4) _ fz).2 b c i j⟩

/-- C4: for every input with `dim` channels, dilation ≥ 1 and spatial
dimensions at least 2·dilation + 1, the `conv_block` output has exactly the
input's shape, `ResnetBlock.forward` returns input + conv_block(input), and
the block's layer list ends with instance normalization (no rectifying
nonlinearity after the second convolution). -/
theorem claim_C4_resnetBlock (dim dilation : Nat) (usn : Bool) (w1 w2 : ConvW)
    (x : Tensor) (hc : x.c = dim) (hd : 0 < dilation)
    (hh : 2 * dilation + 1 ≤ x.h) (hw : 2 * dilation + 1 ≤ x.w) :
    ∃ y, evalSeq (ResnetBlock.conv_block dim dilation usn w1 w2) x = some y ∧
      y.shape = x.shape ∧
      ResnetBlock.forward dim dilation usn w1 w2 x =
        some ⟨x.n, x.c, x.h, x.w, fun b c i j => x.data b c i j + y.data b c i j⟩ ∧
      (ResnetBlock.conv_block dim dilation usn w1 w2).getLast? =
        some (.instanceNorm dim) := by
  obtain ⟨y, ey, ny, cy, hy, wy⟩ :=
    conv_block_shape dim dilation usn w1 w2 x hc hd (by omega) (by omega)
  refine ⟨y, ey, ?_, ?_, ?_⟩
  · simp only [Tensor.shape, Prod.mk.injEq]
    omega
  · rw [ResnetBlock.forward, ey, Option.some_bind, tensorAdd,
      if_pos ⟨ny.symm, cy.symm, hy.symm, wy.symm⟩]
  · rfl

/-- C4 witness: the block property at a concrete 1-channel 3×3 input with
dilation 1 and no spectral normalization. -/
theorem claim_C4_witness :
    ∃ y, evalSeq (ResnetBlock.conv_block 1 1 false zeroConvW zeroConvW)
        (tIn 1 1 3 3) = some y ∧
      y.shape = (tIn 1 1 3 3).shape ∧
      ResnetBlock.forward 1 1 false zeroConvW zeroConvW (tIn 1 1 3 3) =
        some ⟨(tIn 1 1 3 3).n, (tIn 1 1 3 3).c, (tIn 1 1 3 3).h, (tIn 1 1 3 3).w,
          fun b c i j => (tIn 1 1 3 3).data b c i j + y.data b c i j⟩ ∧
      (ResnetBlock.conv_block 1 1 false zeroConvW zeroConvW).getLast? =
        some (.instanceNorm 1) :=
  claim_C4_resnetBlock 1 1 false zeroConvW zeroConvW (tIn 1 1 3 3)
    rfl (by decide) (by decide) (by decide)

/-- The bias flag of a (possibly spectral-norm wrapped) convolution layer;
`none` for non-convolution layers. -/
def Layer.convBias? : Layer → Option Bool
  | .conv c => some c.bias
  | .spectralNormWrap m => Layer.convBias? m
  | _ => none

/-- C5: in every constructed `ResnetBlock`, each of the two convolutions
carries a bias exactly when spectral normalization is not applied
(`bias = !use_spectral_norm` on both). -/
theorem claim_C5_resnetBlock_bias (dim dilation : Nat) (usn : Bool) (w1 w2 : ConvW) :
    (ResnetBlock.conv_block dim dilation usn w1 w2).filterMap Layer.convBias? =
      [!usn, !usn] := by
  cases usn <;> rfl

/-- C8: `EdgeGenerator` built with `residual_blocks = 0` has an empty
middle stage, which acts as the identity, and its forward pass on a valid
4-channel input still returns a 1-channel sigmoid-activated output of the
input's spatial size (values strictly inside (0, 1)). -/
theorem claim_C8_edgeGenerator_no_blocks (scale : Nat) (usn : Bool)
    (p : EdgeGeneratorW) (x : Tensor) (hc : x.c = 4) (hH : 4 ∣ x.h) (hW : 4 ∣ x.w)
    (h0 : 0 < x.h) (w0 : 0 < x.w) :
    EdgeGenerator.blocks (EdgeGenerator.make scale 0 usn p) = [] ∧
    (∀ t, applyBlocks usn (EdgeGenerator.blocks (EdgeGenerator.make scale 0 usn p)) t =
      some t) ∧
    ∃ u z, EdgeGenerator.forward (EdgeGenerator.make scale 0 usn p) x = some u ∧
      u = sigmoidT z ∧ u.n = x.n ∧ u.c = 1 ∧ u.h = x.h ∧ u.w = x.w ∧
      ∀ b c i j, 0 < u.data b c i j ∧ u.data b c i j < 1 := by
  refine ⟨rfl, fun t => rfl, ?_⟩
  obtain ⟨z, _, fz, nz, cz, hz, wz⟩ :=
    edgeGenerator_forward_shape (EdgeGenerator.make scale 0 usn p) x hc hH hW h0 w0
      (Or.inl rfl)
  exact ⟨sigmoidT z, z, fz, rfl, by simp [nz], by simp [cz], by simp [hz],
    by simp [wz], fun b c i j => sigmoidT_range z b c i j⟩

/-- C8 witness: the property at a concrete (1, 4, 4, 4) input, spectral
norm on. -/
theorem claim_C8_witness :
    EdgeGenerator.blocks (EdgeGenerator.make 4 0 true ew0) = [] ∧
    (∀ t, applyBlocks true (EdgeGenerator.blocks (EdgeGenerator.make 4 0 true ew0)) t =
      some t) ∧
    ∃ u z, EdgeGenerator.forward (EdgeGenerator.make 4 0 true ew0) (tIn 1 4 4 4) =
        some u ∧
      u = sigmoidT z ∧ u.n = (tIn 1 4 4 4).n ∧ u.c = 1 ∧ u.h = (tIn 1 4 4 4).h ∧
      u.w = (tIn 1 4 4 4).w ∧
      ∀ b c i j, 0 < u.data b c i j ∧ u.data b c i j < 1 :=
  claim_C8_edgeGenerator_no_blocks 4 true ew0 (tIn 1 4 4 4) rfl (by decide)
    (by decide) (by decide) (by decide)

/-- C9: the `scale` constructor argument of both generators has no effect
on the constructed object or its forward outputs, and the upsampling used
inside `EdgeSRModel.forward` is the constant 4 regardless of anything. -/
theorem claim_C9_scale_is_vestigial :
    (∀ s1 s2 rb w, SRGenerator.make s1 rb w = SRGenerator.make s2 rb w) ∧
    (∀ s1 s2 rb usn w, EdgeGenerator.make s1 rb usn w = EdgeGenerator.make s2 rb usn w) ∧
    (∀ s1 s2 rb w x, SRGenerator.forward (SRGenerator.make s1 rb w) x =
      SRGenerator.forward (SRGenerator.make s2 rb w) x) ∧
    (∀ s1 s2 rb usn w x, EdgeGenerator.forward (EdgeGenerator.make s1 rb usn w) x =
      EdgeGenerator.forward (EdgeGenerator.make s2 rb usn w) x) ∧
    (∀ m lr lr_edges, EdgeSRModel.forward m lr lr_edges =
      (catChannels (interpolate lr 4) (interpolate lr_edges 4)).bind fun inputs =>
        (EdgeGenerator.forward m.edgeGenerator inputs).bind fun edge_gen =>
          (catChannels (interpolate lr 4) edge_gen).bind fun inputs2 =>
            SRGenerator.forward m.srGenerator inputs2) :=
  ⟨fun _ _ _ _ => rfl, fun _ _ _ _ _ => rfl, fun _ _ _ _ _ => rfl,
    fun _ _ _ _ _ _ => rfl, fun _ _ _ => rfl⟩

/-- C6: for every model and recognized policy, `init_weights` zeroes the
bias of every Conv/Linear-named layer exposing a weight and a bias, and
every module's weight tensor keeps its shape. -/
theorem claim_C6_init_weights_bias_and_shape (rng : InitRng) (ty : String) (gain : ℝ)
    (ms : List PModule)
    (hty : ty = "normal" ∨ ty = "xavier" ∨ ty = "kaiming" ∨ ty = "orthogonal") :
    init_weights rng ms ty gain = ms.map (init_func rng ty gain) ∧
    ((init_weights rng ms ty gain).map (fun m => m.weight.map PTensor.shape) =
      ms.map fun m => m.weight.map PTensor.shape) ∧
    ∀ m ∈ ms, m.weight.isSome = true →
      (strContains m.classname "Conv" = true ∨ strContains m.classname "Linear" = true) →
      (init_func rng ty gain m).bias = m.bias.map fun t => ⟨t.shape, fun idx => 0⟩ := by
  refine ⟨rfl, ?_, fun m _ hw hcl => init_func_bias_zero rng ty gain m hw hcl⟩
  rw [init_weights, List.map_map]
  exact List.map_congr_left fun m _ => init_func_weight_shape rng ty gain m

/-- C6 witness: the policy "normal" on a one-convolution model. -/
theorem claim_C6_witness :
    init_weights rng0 [mConv] "normal" 1 = [mConv].map (init_func rng0 "normal" 1) ∧
    ((init_weights rng0 [mConv] "normal" 1).map (fun m => m.weight.map PTensor.shape) =
      [mConv].map fun m => m.weight.map PTensor.shape) ∧
    ∀ m ∈ [mConv], m.weight.isSome = true →
      (strContains m.classname "Conv" = true ∨ strContains m.classname "Linear" = true) →
      (init_func rng0 "normal" 1 m).bias = m.bias.map fun t => ⟨t.shape, fun idx => 0⟩ :=
  claim_C6_init_weights_bias_and_shape rng0 "normal" 1 [mConv] (Or.inl rfl)

/-- C7: calling `init_weights` with an unrecognized policy name leaves
every module's weight values unchanged, provided no module's class name
contains "BatchNorm2d" — which holds for every module of this file's
models, as the second conjunct certifies.  (The model is total: no
exception path exists.) -/
theorem claim_C7_unrecognized_policy_weights_kept (rng : InitRng) (ty : String)
    (gain : ℝ) (ms : List PModule)
    (hty : ty ∉ (["normal", "xavier", "kaiming", "orthogonal"] : List String))
    (hbn : ∀ m ∈ ms, strContains m.classname "BatchNorm2d" = false) :
    ((init_weights rng ms ty gain).map PModule.weight = ms.map PModule.weight) ∧
    ∀ s ∈ EdgeSRModel.moduleClassnames, strContains s "BatchNorm2d" = false := by
  refine ⟨?_, moduleClassnames_no_batchnorm⟩
  rw [init_weights, List.map_map]
  exact List.map_congr_left fun m hm =>
    init_func_weight_of_unrecognized rng ty gain m hty (hbn m hm)

/-- C7 witness: the policy "bogus" on a one-convolution model. -/
theorem claim_C7_witness :
    ((init_weights rng0 [mConv] "bogus" 1).map PModule.weight =
      [mConv].map PModule.weight) ∧
    ∀ s ∈ EdgeSRModel.moduleClassnames, strContains s "BatchNorm2d" = false :=
  claim_C7_unrecognized_policy_weights_kept rng0 "bogus" 1 [mConv] (by decide)
    (by decide)

/-- C10: with an unrecognized policy name, a Conv/Linear-named module with
a weight still gets its bias zeroed, while its weight is left alone — the
silent no-op covers the weight only. -/
theorem claim_C10_unrecognized_policy_still_zeroes_bias (rng : InitRng) (ty : String)
    (gain : ℝ) (m : PModule)
    (hty : ty ∉ (["normal", "xavier", "kaiming", "orthogonal"] : List String))
    (hw : m.weight.isSome = true)
    (hcl : strContains m.classname "Conv" = true ∨ strContains m.classname "Linear" = true) :
    ((init_func rng ty gain m).bias = m.bias.map fun t => ⟨t.shape, fun idx => 0⟩) ∧
    (init_func rng ty gain m).weight = m.weight :=
  ⟨init_func_bias_zero rng ty gain m hw hcl,
   init_func_weight_of_unrecognized_convlinear rng ty gain m hty hw hcl⟩

/-- C10 witness: the policy "bogus" on a concrete convolution module. -/
theorem claim_C10_witness :
    ((init_func rng0 "bogus" 1 mConv).bias =
      mConv.bias.map fun t => ⟨t.shape, fun idx => 0⟩) ∧
    (init_func rng0 "bogus" 1 mConv).weight = mConv.weight :=
  claim_C10_unrecognized_policy_still_zeroes_bias rng0 "bogus" 1 mConv (by decide)
    (by decide) (by decide)
